import Mathlib

/-
  Verification of a constant-product AMM DEX simulator against its
  natural-language specification.

  The definitions below are a shallow embedding of the simulator
  (dex.py and v3_liquidity_math.py).  Python floats are modelled as
  real numbers, math.sqrt as Real.sqrt, math.log as Real.log, Python
  integer floor division (//) as Int.fdiv, and in-place mutation of the
  DEX object as explicit state passing: an operation that mutates the
  pool takes a DEX and returns the (return value, updated DEX) pair.
  Debug printing and the debug_log flag are not modelled; the debug
  override preset_target_price is kept since it changes behaviour.
-/

/- Liquidity math from v3_liquidity_math.py -/

noncomputable def get_liquidity_0 (x sa sb : ℝ) : ℝ := x * sa * sb / (sb - sa)

noncomputable def get_liquidity_1 (y sa sb : ℝ) : ℝ := y / (sb - sa)

noncomputable def get_liquidity (x y sp sa sb : ℝ) : ℝ :=
  if sp ≤ sa then
    get_liquidity_0 x sa sb
  else if sp < sb then
    min (get_liquidity_0 x sp sb) (get_liquidity_1 y sa sp)
  else
    get_liquidity_1 y sa sb

/- calculate_x and calculate_y clamp the price to the range endpoints
   when the price is outside the range, as in the source. -/

noncomputable def calculate_x (L sp sa sb : ℝ) : ℝ :=
  let sp2 := max (min sp sb) sa
  L * (sb - sp2) / (sp2 * sb)

noncomputable def calculate_y (L sp sa sb : ℝ) : ℝ :=
  let sp2 := max (min sp sb) sa
  L * (sp2 - sa)

/- Convert Uniswap v3 tick to price: 1.0001 ** tick -/
noncomputable def to_price (tick : ℤ) : ℝ := (1.0001 : ℝ) ^ tick

/- Convert tick to sqrt(price): 1.0001 ** (tick // 2); Python // is
   floor division on integers, which is Int.fdiv. -/
noncomputable def to_sqrt_price (tick : ℤ) : ℝ := (1.0001 : ℝ) ^ (tick.fdiv 2)

/- Convert price to tick: int(round(log(price, 1.0001))). -/
noncomputable def to_tick (price : ℝ) : ℤ :=
  round (Real.log price / Real.log 1.0001)

/- compute_amounts from v3_liquidity_math.py (the assert_lt debug check
   is a print-and-assert on an exact identity and is not modelled). -/
noncomputable def compute_amounts (liquidity_usd sp sa sb : ℝ) : ℝ × ℝ :=
  let p := sp ^ 2
  let x_unit := (sb - sp) / (sp * sb)
  let y_unit := sp - sa
  let x_wallet : ℝ := 0
  let y_wallet := liquidity_usd
  let v_wallet := x_wallet * p + y_wallet
  let v_unit := x_unit * p + y_unit
  let n_units := v_wallet / v_unit
  (n_units * x_unit, n_units * y_unit)

def tick_to_range_low (tick tick_spacing : ℤ) : ℤ :=
  (tick.fdiv tick_spacing) * tick_spacing

def tick_to_range_high (tick tick_spacing : ℤ) : ℤ :=
  tick_to_range_low tick tick_spacing + tick_spacing

/- The DEX pool state (class DEX in dex.py). -/
structure DEX where
  fee_ppm : ℝ
  fee_factor : ℝ
  basefee_usd : ℝ
  tick_spacing : ℤ
  reserve_x : ℝ
  reserve_y : ℝ
  pos_liquidity : ℝ
  pos_liquidity_share : ℝ
  pos_tick_low : ℤ
  pos_tick_high : ℤ
  pos_fees_usd : ℝ
  pos_fees_eth : ℝ
  volume : ℝ
  lp_fees : ℝ
  lvr : ℝ
  sbp_profits : ℝ
  basefees : ℝ
  num_tx : ℕ
  preset_target_price : Option ℝ

noncomputable def DEX.price (d : DEX) : ℝ := d.reserve_y / d.reserve_x

noncomputable def DEX.liquidity (d : DEX) : ℝ := Real.sqrt (d.reserve_x * d.reserve_y)

/- get_amounts_to_target_price: pure computation of the reserve deltas
   that move the pool price to the target price. -/
noncomputable def DEX.get_amounts_to_target_price (d : DEX) (target_price : ℝ) : ℝ × ℝ :=
  let tp := match d.preset_target_price with
    | some p => p
    | none => target_price
  let sqrt_target_price := Real.sqrt tp
  let L := d.liquidity
  (L / sqrt_target_price - d.reserve_x, L * sqrt_target_price - d.reserve_y)

/- swap_x_to_y: the fee is removed from the input, the price used for
   fee and volume accounting is the pre-swap price, and the output is
   computed against the already-increased reserve_x. -/
noncomputable def DEX.swap_x_to_y (d : DEX) (amount_in_x : ℝ) : ℝ × DEX :=
  let amount_in_x_without_fee := amount_in_x / d.fee_factor
  let price := d.price
  let new_reserve_x := d.reserve_x + amount_in_x_without_fee
  let y_out := amount_in_x_without_fee * d.reserve_y / new_reserve_x
  (y_out,
   { d with
     lp_fees := d.lp_fees + (amount_in_x - amount_in_x_without_fee) * price,
     reserve_x := new_reserve_x,
     reserve_y := d.reserve_y - y_out,
     volume := d.volume + amount_in_x * price,
     num_tx := d.num_tx + 1,
     basefees := d.basefees + d.basefee_usd })

noncomputable def DEX.swap_y_to_x (d : DEX) (amount_in_y : ℝ) : ℝ × DEX :=
  let amount_in_y_without_fee := amount_in_y / d.fee_factor
  let new_reserve_y := d.reserve_y + amount_in_y_without_fee
  let x_out := amount_in_y_without_fee * d.reserve_x / new_reserve_y
  (x_out,
   { d with
     lp_fees := d.lp_fees + (amount_in_y - amount_in_y_without_fee),
     reserve_y := new_reserve_y,
     reserve_x := d.reserve_x - x_out,
     volume := d.volume + amount_in_y,
     num_tx := d.num_tx + 1,
     basefees := d.basefees + d.basefee_usd })

/- get_target_price: returns none where the Python code returns None
   (the price difference does not clear the fee band). -/
noncomputable def DEX.get_target_price (d : DEX) (cex_price : ℝ) : Option ℝ :=
  let dex_price := d.price
  if cex_price > dex_price then
    let target_price := cex_price / d.fee_factor
    if target_price < dex_price then none else some target_price
  else
    let target_price := cex_price * d.fee_factor
    if target_price > dex_price then none else some target_price

/- The intermediate quantities computed inside maybe_arbitrage for a
   given candidate target price, factored out so that the theorems can
   refer to them: the LP fee of the move valued at the CEX price, the
   single-transaction LVR, and the searcher-builder-proposer profit. -/
noncomputable def DEX.lp_fee_at (d : DEX) (cex_price target_price : ℝ) : ℝ :=
  let dxy := d.get_amounts_to_target_price target_price
  if dxy.1 > 0 then (dxy.1 * d.fee_factor - dxy.1) * cex_price
  else dxy.2 * d.fee_factor - dxy.2

noncomputable def DEX.lvr_at (d : DEX) (cex_price target_price : ℝ) : ℝ :=
  let dxy := d.get_amounts_to_target_price target_price;
  -(dxy.1 * cex_price + dxy.2)

noncomputable def DEX.sbp_profit_at (d : DEX) (cex_price target_price : ℝ) : ℝ :=
  d.lvr_at cex_price target_price - d.lp_fee_at cex_price target_price - d.basefee_usd

/- get_fee_share helpers: tick_start is the tick of the lower of the
   two prices, tick_end is the tick of the end price (the source
   computes swap_price_high but never uses it). -/
noncomputable def DEX.fee_share_total_ticks (d : DEX) (swap_price_start swap_price_end : ℝ) : ℤ :=
  to_tick swap_price_end - to_tick (min swap_price_start swap_price_end) + 1

noncomputable def DEX.fee_share_ticks_in_range (d : DEX) (swap_price_start swap_price_end : ℝ) : ℤ :=
  let tick_start := to_tick (min swap_price_start swap_price_end)
  let tick_end := to_tick swap_price_end
  let total_ticks := tick_end - tick_start + 1
  if tick_start < d.pos_tick_low then
    if tick_end < d.pos_tick_low then 0
    else if tick_end < d.pos_tick_high then tick_end - d.pos_tick_low + 1
    else d.pos_tick_high - d.pos_tick_low + 1
  else if tick_start < d.pos_tick_high then
    if tick_end < d.pos_tick_high then total_ticks
    else d.pos_tick_high - tick_start
  else 0

noncomputable def DEX.get_fee_share (d : DEX) (swap_price_start swap_price_end : ℝ) : ℝ :=
  let proportion_in_range :=
    (d.fee_share_ticks_in_range swap_price_start swap_price_end : ℝ) /
      (d.fee_share_total_ticks swap_price_start swap_price_end : ℝ)
  proportion_in_range * d.pos_liquidity_share

/- add_position: the source also asserts pos_liquidity_share < 1; the
   assert does not change the state and is stated as a hypothesis where
   a claim requires it. -/
noncomputable def DEX.add_position (d : DEX) (liquidity_usd : ℝ) (tick_low tick_high : ℤ) : DEX :=
  let price_low := to_price tick_low
  let price_high := to_price tick_high
  let sp := Real.sqrt d.price
  let sa := Real.sqrt price_low
  let sb := Real.sqrt price_high
  let amounts := compute_amounts liquidity_usd sp sa sb
  let pos_liquidity := get_liquidity amounts.1 amounts.2 sp sa sb
  { d with
    pos_tick_low := tick_low,
    pos_tick_high := tick_high,
    pos_liquidity := pos_liquidity,
    pos_liquidity_share := pos_liquidity / d.liquidity }

noncomputable def DEX.get_position_assets (d : DEX) : ℝ × ℝ :=
  let sp := Real.sqrt d.price
  let sa := to_sqrt_price d.pos_tick_low
  let sb := to_sqrt_price d.pos_tick_high
  (calculate_x d.pos_liquidity sp sa sb, calculate_y d.pos_liquidity sp sa sb)

noncomputable def DEX.remove_position (d : DEX) (cex_price : ℝ) : ℝ × DEX :=
  let assets := d.get_position_assets
  let liquidity_usd := assets.2 + assets.1 * cex_price
  let fees_usd := d.pos_fees_usd + d.pos_fees_eth * cex_price
  (liquidity_usd + fees_usd,
   { d with
     pos_fees_usd := 0,
     pos_fees_eth := 0,
     pos_liquidity := 0,
     pos_liquidity_share := 0 })

/- maybe_arbitrage.  The source computes lp_fee_usd, lp_fee_eth and
   lp_fee in a single if/else on delta_x > 0; here the same three values
   are written with the factored helpers above (lp_fee_at unfolds to the
   same if/else).  The source updates pos_fees_usd when lp_fee_usd != 0
   and pos_fees_eth otherwise; this is the single branch in the final
   state below.  All other updated fields are identical in both
   branches, exactly as in the source. -/
noncomputable def DEX.maybe_arbitrage (d : DEX) (cex_price : ℝ) : Bool × DEX :=
  match d.get_target_price cex_price with
  | none => (false, d)
  | some target_price =>
    let dxy := d.get_amounts_to_target_price target_price
    let delta_x := dxy.1
    let delta_y := dxy.2
    let lp_fee_usd := if delta_x > 0 then (0 : ℝ) else delta_y * d.fee_factor - delta_y
    let lp_fee_eth := if delta_x > 0 then delta_x * d.fee_factor - delta_x else (0 : ℝ)
    let lp_fee := d.lp_fee_at cex_price target_price
    let single_transaction_lvr := d.lvr_at cex_price target_price
    let sbp_profit := single_transaction_lvr - lp_fee - d.basefee_usd
    if sbp_profit ≤ 0 then (false, d)
    else
      let price_start := d.price
      let new_reserve_x := d.reserve_x + delta_x
      let new_reserve_y := d.reserve_y + delta_y
      let d1 := { d with reserve_x := new_reserve_x, reserve_y := new_reserve_y }
      let price_end := d1.price
      let share := d1.get_fee_share price_start price_end
      (true,
       { d1 with
         pos_fees_usd := if lp_fee_usd ≠ 0 then d1.pos_fees_usd + share * lp_fee_usd
                         else d1.pos_fees_usd,
         pos_fees_eth := if lp_fee_usd ≠ 0 then d1.pos_fees_eth
                         else d1.pos_fees_eth + share * lp_fee_eth,
         volume := d1.volume + |delta_y| + lp_fee,
         lp_fees := d1.lp_fees + lp_fee,
         lvr := d1.lvr + single_transaction_lvr,
         sbp_profits := d1.sbp_profits + sbp_profit,
         basefees := d1.basefees + d.basefee_usd,
         num_tx := d1.num_tx + 1 })

/- k successive swap_y_to_x swaps of the same input amount. -/
noncomputable def DEX.swap_y_to_x_iter (d : DEX) (amount_in_y : ℝ) : ℕ → DEX
  | 0 => d
  | k + 1 => ((d.swap_y_to_x_iter amount_in_y k).swap_y_to_x amount_in_y).2

/- Concrete pool states used to instantiate the theorems.  dexArb has
   price 4 and fee_factor 2 (fee_ppm 500000), so its arbitrage band and
   target prices evaluate to perfect squares. -/
noncomputable def dexArb : DEX :=
  { fee_ppm := 500000, fee_factor := 2, basefee_usd := 1, tick_spacing := 10,
    reserve_x := 1, reserve_y := 4,
    pos_liquidity := 0, pos_liquidity_share := 0,
    pos_tick_low := 0, pos_tick_high := 0,
    pos_fees_usd := 0, pos_fees_eth := 0,
    volume := 0, lp_fees := 0, lvr := 0, sbp_profits := 0, basefees := 0,
    num_tx := 0, preset_target_price := none }

noncomputable def dexSwap : DEX :=
  { dexArb with reserve_y := 1 }

noncomputable def dexZeroFee : DEX :=
  { dexArb with fee_ppm := 0, fee_factor := 1, reserve_y := 1 }

noncomputable def dexPos : DEX :=
  { dexArb with reserve_x := 100000000, reserve_y := 100000000 }

noncomputable def dexFee : DEX :=
  { dexArb with pos_tick_low := -5, pos_tick_high := 5, pos_liquidity_share := 1/2 }

/- ------------------------------------------------------------------ -/
/- Helper lemmas                                                      -/
/- ------------------------------------------------------------------ -/

lemma fee_factor_ge_one {d : DEX} (h0 : 0 ≤ d.fee_ppm) (h1 : d.fee_ppm < 1000000)
    (hff : d.fee_factor = 1000000 / (1000000 - d.fee_ppm)) : 1 ≤ d.fee_factor := by
  rw [hff, le_div_iff (by linarith)]
  linarith

lemma fee_factor_pos {d : DEX} (hff : 1 ≤ d.fee_factor) : 0 < d.fee_factor :=
  lt_of_lt_of_le one_pos hff

lemma target_price_pos {d : DEX} {cex t : ℝ} (hcex : 0 < cex) (hffpos : 0 < d.fee_factor)
    (h : d.get_target_price cex = some t) : 0 < t := by
  unfold DEX.get_target_price at h
  dsimp only at h
  split_ifs at h <;> simp only [Option.some.injEq] at h <;> subst h
  · positivity
  · positivity

lemma liquidity_div_sqrt_price {x y : ℝ} (hx : 0 < x) (hy : 0 < y) :
    Real.sqrt (x * y) / Real.sqrt (y / x) = x := by
  rw [← Real.sqrt_div (by positivity) (y / x)]
  have hxy : x * y / (y / x) = x ^ 2 := by
    field_simp
    ring
  rw [hxy, Real.sqrt_sq hx.le]

lemma liquidity_mul_sqrt_price {x y : ℝ} (hx : 0 < x) (hy : 0 < y) :
    Real.sqrt (x * y) * Real.sqrt (y / x) = y := by
  rw [← Real.sqrt_mul (by positivity) (y / x)]
  have hxy : x * y * (y / x) = y ^ 2 := by
    field_simp
    ring
  rw [hxy, Real.sqrt_sq hy.le]

lemma maybe_arbitrage_of_none {d : DEX} {cex : ℝ} (h : d.get_target_price cex = none) :
    d.maybe_arbitrage cex = (false, d) := by
  unfold DEX.maybe_arbitrage
  rw [h]

lemma maybe_arbitrage_of_nonpos {d : DEX} {cex t : ℝ} (h : d.get_target_price cex = some t)
    (hs : d.sbp_profit_at cex t ≤ 0) : d.maybe_arbitrage cex = (false, d) := by
  unfold DEX.sbp_profit_at at hs
  unfold DEX.maybe_arbitrage
  rw [h]
  simp only [if_pos hs]

lemma maybe_arbitrage_of_pos {d : DEX} {cex t : ℝ} (h : d.get_target_price cex = some t)
    (hs : 0 < d.sbp_profit_at cex t) :
    (d.maybe_arbitrage cex).1 = true ∧
    (d.maybe_arbitrage cex).2.reserve_x = d.reserve_x + (d.get_amounts_to_target_price t).1 ∧
    (d.maybe_arbitrage cex).2.reserve_y = d.reserve_y + (d.get_amounts_to_target_price t).2 ∧
    (d.maybe_arbitrage cex).2.lvr = d.lvr + d.lvr_at cex t := by
  have hs' : ¬ (d.lvr_at cex t - d.lp_fee_at cex t - d.basefee_usd ≤ 0) := by
    unfold DEX.sbp_profit_at at hs
    linarith
  unfold DEX.maybe_arbitrage
  rw [h]
  dsimp only
  rw [if_neg hs']
  exact ⟨rfl, rfl, rfl, rfl⟩

lemma sbp_pos_of_trade {d : DEX} {cex t : ℝ} (h : d.get_target_price cex = some t)
    (htr : (d.maybe_arbitrage cex).1 = true) : 0 < d.sbp_profit_at cex t := by
  by_contra hn
  push_neg at hn
  rw [maybe_arbitrage_of_nonpos h hn] at htr
  simp at htr

lemma amounts_at_own_price {d : DEX} (hx : 0 < d.reserve_x) (hy : 0 < d.reserve_y)
    (hpre : d.preset_target_price = none) :
    d.get_amounts_to_target_price d.price = (0, 0) := by
  simp only [DEX.get_amounts_to_target_price, hpre, DEX.liquidity, DEX.price]
  rw [liquidity_div_sqrt_price hx hy, liquidity_mul_sqrt_price hx hy]
  simp

lemma target_at_upper_boundary {d : DEX} (hx : 0 < d.reserve_x) (hy : 0 < d.reserve_y)
    (hff : 1 ≤ d.fee_factor) :
    d.get_target_price (d.price * d.fee_factor) = some d.price := by
  have hp : 0 < d.price := div_pos hy hx
  have hffp := fee_factor_pos hff
  have hdiv : d.price * d.fee_factor / d.fee_factor = d.price := by
    field_simp
  unfold DEX.get_target_price
  dsimp only
  rcases lt_or_eq_of_le hff with h1 | h1
  · rw [if_pos (by nlinarith), hdiv, if_neg (lt_irrefl d.price)]
  · rw [← h1]
    simp only [mul_one, gt_iff_lt, lt_irrefl, if_false, if_neg (lt_irrefl d.price)]

lemma target_above_upper_boundary {d : DEX} {cex : ℝ} (hx : 0 < d.reserve_x)
    (hy : 0 < d.reserve_y) (hff : 1 ≤ d.fee_factor)
    (hcex : d.price * d.fee_factor < cex) :
    d.get_target_price cex = some (cex / d.fee_factor) := by
  have hp : 0 < d.price := div_pos hy hx
  have hffp := fee_factor_pos hff
  have h1 : d.price < cex := by nlinarith
  have h2 : d.price < cex / d.fee_factor := by
    rw [lt_div_iff hffp]
    linarith
  unfold DEX.get_target_price
  dsimp only
  rw [if_pos h1, if_neg (not_lt.mpr h2.le)]

lemma target_at_own_price_none {d : DEX} (hx : 0 < d.reserve_x) (hy : 0 < d.reserve_y)
    (hff : 1 < d.fee_factor) :
    d.get_target_price d.price = none := by
  have hp : 0 < d.price := div_pos hy hx
  unfold DEX.get_target_price
  dsimp only
  rw [if_neg (lt_irrefl d.price), if_pos (by nlinarith)]

lemma swap_x_to_y_reserves {d : DEX} {a : ℝ} (hx : 0 < d.reserve_x) (hy : 0 < d.reserve_y)
    (hff : 1 ≤ d.fee_factor) (ha : 0 < a) :
    0 < (d.swap_x_to_y a).2.reserve_x ∧ 0 < (d.swap_x_to_y a).2.reserve_y := by
  have hffp := fee_factor_pos hff
  have hnet : 0 < a / d.fee_factor := div_pos ha hffp
  unfold DEX.swap_x_to_y
  dsimp only
  constructor
  · positivity
  · have hkey : d.reserve_y - a / d.fee_factor * d.reserve_y / (d.reserve_x + a / d.fee_factor) =
        d.reserve_y * d.reserve_x / (d.reserve_x + a / d.fee_factor) := by
      field_simp
      ring
    rw [hkey]
    positivity

lemma swap_y_to_x_reserves {d : DEX} {a : ℝ} (hx : 0 < d.reserve_x) (hy : 0 < d.reserve_y)
    (hff : 1 ≤ d.fee_factor) (ha : 0 < a) :
    0 < (d.swap_y_to_x a).2.reserve_x ∧ 0 < (d.swap_y_to_x a).2.reserve_y := by
  have hffp := fee_factor_pos hff
  have hnet : 0 < a / d.fee_factor := div_pos ha hffp
  unfold DEX.swap_y_to_x
  dsimp only
  constructor
  · have hkey : d.reserve_x - a / d.fee_factor * d.reserve_x / (d.reserve_y + a / d.fee_factor) =
        d.reserve_x * d.reserve_y / (d.reserve_y + a / d.fee_factor) := by
      field_simp
      ring
    rw [hkey]
    positivity
  · positivity

lemma delta_y_nonneg_of_delta_x_nonpos {d : DEX} {t : ℝ} (hx : 0 < d.reserve_x)
    (hy : 0 < d.reserve_y) (ht : 0 < t) (hpre : d.preset_target_price = none)
    (hdx : (d.get_amounts_to_target_price t).1 ≤ 0) :
    0 ≤ (d.get_amounts_to_target_price t).2 := by
  simp only [DEX.get_amounts_to_target_price, hpre, DEX.liquidity] at hdx ⊢
  set L := Real.sqrt (d.reserve_x * d.reserve_y) with hLdef
  set s := Real.sqrt t with hsdef
  have hL : 0 < L := Real.sqrt_pos.mpr (by positivity)
  have hs : 0 < s := Real.sqrt_pos.mpr ht
  have hLL : L * L = d.reserve_x * d.reserve_y := Real.mul_self_sqrt (by positivity)
  have h1 : L ≤ d.reserve_x * s := by
    have := sub_nonpos.mp hdx
    rw [div_le_iff hs] at this
    linarith
  have h2 : L * L ≤ d.reserve_x * s * L :=
    mul_le_mul_of_nonneg_right h1 hL.le
  have h3 : d.reserve_y ≤ s * L := by
    have hx' : d.reserve_x * d.reserve_y ≤ d.reserve_x * (s * L) := by
      calc d.reserve_x * d.reserve_y = L * L := hLL.symm
        _ ≤ d.reserve_x * s * L := h2
        _ = d.reserve_x * (s * L) := by ring
    exact le_of_mul_le_mul_left hx' hx
  linarith [mul_comm L s]

lemma lp_fee_at_nonneg {d : DEX} {cex t : ℝ} (hx : 0 < d.reserve_x) (hy : 0 < d.reserve_y)
    (ht : 0 < t) (hpre : d.preset_target_price = none) (hff : 1 ≤ d.fee_factor)
    (hcex : 0 < cex) : 0 ≤ d.lp_fee_at cex t := by
  unfold DEX.lp_fee_at
  dsimp only
  split_ifs with hdx
  · have : 0 ≤ (d.get_amounts_to_target_price t).1 * (d.fee_factor - 1) :=
      mul_nonneg hdx.le (by linarith)
    nlinarith
  · push_neg at hdx
    have hdy := delta_y_nonneg_of_delta_x_nonpos hx hy ht hpre hdx
    nlinarith

lemma swap_y_to_x_iter_lp_fees (d : DEX) (a : ℝ) (k : ℕ) :
    (d.swap_y_to_x_iter a k).lp_fees = d.lp_fees + k * (a - a / d.fee_factor) ∧
    (d.swap_y_to_x_iter a k).fee_factor = d.fee_factor := by
  induction k with
  | zero => simp [DEX.swap_y_to_x_iter]
  | succ n ih =>
    unfold DEX.swap_y_to_x_iter
    unfold DEX.swap_y_to_x
    dsimp only
    rw [ih.1, ih.2]
    constructor
    · push_cast
      ring
    · rfl

lemma to_tick_mono {a b : ℝ} (ha : 0 < a) (hab : a ≤ b) : to_tick a ≤ to_tick b := by
  unfold to_tick
  have hlog : Real.log a ≤ Real.log b := Real.log_le_log ha hab
  have hl : 0 < Real.log 1.0001 := Real.log_pos (by norm_num)
  have hdiv : Real.log a / Real.log 1.0001 ≤ Real.log b / Real.log 1.0001 :=
    (div_le_div_right hl).mpr hlog
  rw [round_eq, round_eq]
  exact Int.floor_mono (by linarith)

lemma sqrt_to_price_of_even {k : ℤ} (hk : Even k) :
    Real.sqrt (to_price k) = to_sqrt_price k := by
  obtain ⟨m, hm⟩ := hk
  subst hm
  unfold to_price to_sqrt_price
  have h2 : ((m + m).fdiv 2) = m := by
    rw [← two_mul]
    exact Int.mul_fdiv_cancel_left m (by norm_num)
  rw [h2]
  have hpow : (1.0001 : ℝ) ^ (m + m) = ((1.0001 : ℝ) ^ m) * ((1.0001 : ℝ) ^ m) := by
    rw [← zpow_add₀ (by norm_num : (1.0001 : ℝ) ≠ 0)]
  rw [hpow, Real.sqrt_mul_self (by positivity)]

lemma get_liquidity_of_compute_amounts {v s A B : ℝ} (hAs : A < s) (hsB : s < B)
    (hs : 0 < s) (hB : 0 < B) :
    get_liquidity (compute_amounts v s A B).1 (compute_amounts v s A B).2 s A B =
      v / ((B - s) / (s * B) * s ^ 2 + (s - A)) := by
  unfold compute_amounts get_liquidity get_liquidity_0 get_liquidity_1
  dsimp only
  rw [if_neg (not_le.mpr hAs), if_pos hsB]
  have hne1 : B - s ≠ 0 := sub_ne_zero.mpr (ne_of_gt hsB)
  have hne2 : s - A ≠ 0 := sub_ne_zero.mpr (ne_of_gt hAs)
  have hzv : (0 : ℝ) * s ^ 2 + v = v := by ring
  rw [hzv]
  set n := v / ((B - s) / (s * B) * s ^ 2 + (s - A)) with hn
  have e1 : n * ((B - s) / (s * B)) * s * B / (B - s) = n := by
    field_simp
    ring
  have e2 : n * (s - A) / (s - A) = n := by
    rw [mul_div_assoc, div_self hne2, mul_one]
  rw [e1, e2, min_self]

lemma roundtrip_eval (d : DEX) (v : ℝ) (tl th : ℤ)
    (hx : 0 < d.reserve_x) (hy : 0 < d.reserve_y)
    (hfu : d.pos_fees_usd = 0) (hfe : d.pos_fees_eth = 0)
    (hA : Real.sqrt (to_price tl) < Real.sqrt d.price)
    (hB : Real.sqrt d.price < Real.sqrt (to_price th))
    (hA2 : to_sqrt_price tl ≤ Real.sqrt d.price)
    (hB2 : Real.sqrt d.price ≤ to_sqrt_price th) :
    ((d.add_position v tl th).remove_position d.price).1 =
      v / ((Real.sqrt (to_price th) - Real.sqrt d.price) /
            (Real.sqrt d.price * Real.sqrt (to_price th)) * Real.sqrt d.price ^ 2 +
            (Real.sqrt d.price - Real.sqrt (to_price tl))) *
          (Real.sqrt d.price - to_sqrt_price tl) +
        v / ((Real.sqrt (to_price th) - Real.sqrt d.price) /
            (Real.sqrt d.price * Real.sqrt (to_price th)) * Real.sqrt d.price ^ 2 +
            (Real.sqrt d.price - Real.sqrt (to_price tl))) *
          (to_sqrt_price th - Real.sqrt d.price) /
          (Real.sqrt d.price * to_sqrt_price th) * d.price ∧
    (d.add_position v tl th).pos_liquidity_share =
      v / ((Real.sqrt (to_price th) - Real.sqrt d.price) /
            (Real.sqrt d.price * Real.sqrt (to_price th)) * Real.sqrt d.price ^ 2 +
            (Real.sqrt d.price - Real.sqrt (to_price tl))) / d.liquidity := by
  have hp : 0 < d.price := by
    rw [DEX.price]
    positivity
  have hs : 0 < Real.sqrt d.price := Real.sqrt_pos.mpr hp
  have hBpos : 0 < Real.sqrt (to_price th) := lt_trans hs hB
  have hgl := get_liquidity_of_compute_amounts (v := v) hA hB hs hBpos
  unfold DEX.add_position
  dsimp only
  rw [hgl]
  set n := v / ((Real.sqrt (to_price th) - Real.sqrt d.price) /
      (Real.sqrt d.price * Real.sqrt (to_price th)) * Real.sqrt d.price ^ 2 +
      (Real.sqrt d.price - Real.sqrt (to_price tl))) with hn
  constructor
  · unfold DEX.remove_position DEX.get_position_assets calculate_x calculate_y DEX.price
    dsimp only
    unfold DEX.price at hA2 hB2
    rw [min_eq_left hB2, max_eq_left hA2, hfu, hfe]
    ring
  · rfl

/- ------------------------------------------------------------------ -/
/- Claim theorems                                                     -/
/- ------------------------------------------------------------------ -/

/-- C1: For every pool state and every positive reference price, if
get_target_price returns no trade, or the computed
sbp_profit = LVR - lp_fee - basefee_usd is nonpositive, then
maybe_arbitrage returns false and the entire pool state (reserves,
position fee accumulators and all cumulative metrics) is unchanged. -/
theorem C1_no_trade_leaves_state_unchanged (d : DEX) (cex : ℝ) (hcex : 0 < cex)
    (h : d.get_target_price cex = none ∨
      ∃ tp, d.get_target_price cex = some tp ∧ d.sbp_profit_at cex tp ≤ 0) :
    d.maybe_arbitrage cex = (false, d) := by
  rcases h with h | ⟨tp, h, hs⟩
  · exact maybe_arbitrage_of_none h
  · exact maybe_arbitrage_of_nonpos h hs

/-- C1 witness: at the pool dexArb and reference price 4 (inside the
fee band) the hypotheses hold and maybe_arbitrage leaves the state
untouched. -/
theorem C1_witness : dexArb.maybe_arbitrage 4 = (false, dexArb) :=
  C1_no_trade_leaves_state_unchanged dexArb 4 (by norm_num)
    (Or.inl (by norm_num [dexArb, DEX.get_target_price, DEX.price]))

/-- C4 counterexample: the claim allows fee_ppm = 0.  With fee_ppm = 0
(fee_factor = 1, consistent with fee_factor = 1000000/(1000000 - fee_ppm))
and positive reserves, get_target_price at the pool price returns
some 1 (the pool price) rather than no trade. -/
theorem C4_counterexample :
    dexZeroFee.fee_ppm = 0 ∧
    dexZeroFee.fee_factor = 1000000 / (1000000 - dexZeroFee.fee_ppm) ∧
    0 < dexZeroFee.reserve_x ∧ 0 < dexZeroFee.reserve_y ∧
    dexZeroFee.get_target_price dexZeroFee.price = some 1 := by
  refine ⟨rfl, by norm_num [dexZeroFee, dexArb], by norm_num [dexZeroFee, dexArb],
    by norm_num [dexZeroFee, dexArb], ?_⟩
  norm_num [dexZeroFee, dexArb, DEX.get_target_price, DEX.price]

/-- C4 amended: for every pool with positive reserves and strictly
positive fee_ppm below 1000000 (so fee_factor is strictly above 1),
get_target_price called with the pool price itself returns no trade. -/
theorem C4_target_price_idempotent (d : DEX) (hx : 0 < d.reserve_x) (hy : 0 < d.reserve_y)
    (h0 : 0 < d.fee_ppm) (h1 : d.fee_ppm < 1000000)
    (hffq : d.fee_factor = 1000000 / (1000000 - d.fee_ppm)) :
    d.get_target_price d.price = none := by
  apply target_at_own_price_none hx hy
  rw [hffq, lt_div_iff (by linarith)]
  linarith

/-- C4 witness: the amended statement instantiated at dexArb. -/
theorem C4_witness : dexArb.get_target_price dexArb.price = none :=
  C4_target_price_idempotent dexArb (by norm_num [dexArb]) (by norm_num [dexArb])
    (by norm_num [dexArb]) (by norm_num [dexArb]) (by norm_num [dexArb])

/-- C7: with the debug override preset_target_price unset, positive
reserves and a positive target price, get_amounts_to_target_price
returns exactly (L/sqrt(target) - reserve_x, L*sqrt(target) - reserve_y)
with L = sqrt(reserve_x*reserve_y) (in this embedding it is a pure
function, so it mutates no pool state), and adding the returned deltas
to the reserves moves the pool price reserve_y/reserve_x exactly to the
target price. -/
theorem C7_amounts_move_price_to_target (d : DEX) (t : ℝ)
    (hpre : d.preset_target_price = none) (hx : 0 < d.reserve_x) (hy : 0 < d.reserve_y)
    (ht : 0 < t) :
    d.get_amounts_to_target_price t =
      (Real.sqrt (d.reserve_x * d.reserve_y) / Real.sqrt t - d.reserve_x,
       Real.sqrt (d.reserve_x * d.reserve_y) * Real.sqrt t - d.reserve_y) ∧
    (d.reserve_y + (d.get_amounts_to_target_price t).2) /
      (d.reserve_x + (d.get_amounts_to_target_price t).1) = t := by
  have hform : d.get_amounts_to_target_price t =
      (Real.sqrt (d.reserve_x * d.reserve_y) / Real.sqrt t - d.reserve_x,
       Real.sqrt (d.reserve_x * d.reserve_y) * Real.sqrt t - d.reserve_y) := by
    simp only [DEX.get_amounts_to_target_price, hpre, DEX.liquidity]
  refine ⟨hform, ?_⟩
  rw [hform]
  dsimp only
  have hL : 0 < Real.sqrt (d.reserve_x * d.reserve_y) := Real.sqrt_pos.mpr (by positivity)
  have hst : 0 < Real.sqrt t := Real.sqrt_pos.mpr ht
  have hss : Real.sqrt t * Real.sqrt t = t := Real.mul_self_sqrt ht.le
  have e1 : d.reserve_y + (Real.sqrt (d.reserve_x * d.reserve_y) * Real.sqrt t - d.reserve_y) =
      Real.sqrt (d.reserve_x * d.reserve_y) * Real.sqrt t := by ring
  have e2 : d.reserve_x + (Real.sqrt (d.reserve_x * d.reserve_y) / Real.sqrt t - d.reserve_x) =
      Real.sqrt (d.reserve_x * d.reserve_y) / Real.sqrt t := by ring
  rw [e1, e2]
  rw [div_div_eq_mul_div]
  rw [mul_assoc, hss, mul_comm, mul_div_assoc, div_self (ne_of_gt hL), mul_one]

/-- C7 witness: the statement instantiated at dexArb with target
price 16. -/
theorem C7_witness :
    dexArb.get_amounts_to_target_price 16 =
      (Real.sqrt (dexArb.reserve_x * dexArb.reserve_y) / Real.sqrt 16 - dexArb.reserve_x,
       Real.sqrt (dexArb.reserve_x * dexArb.reserve_y) * Real.sqrt 16 - dexArb.reserve_y) ∧
    (dexArb.reserve_y + (dexArb.get_amounts_to_target_price 16).2) /
      (dexArb.reserve_x + (dexArb.get_amounts_to_target_price 16).1) = 16 :=
  C7_amounts_move_price_to_target dexArb 16 rfl (by norm_num [dexArb])
    (by norm_num [dexArb]) (by norm_num)

/-- C2 counterexample: at the pool dexSwap (fee_factor 2), splitting a
swap_y_to_x of total input 2 into two swaps of 1 leaves cumulative
lp_fees exactly equal to the single swap of 2, not strictly greater. -/
theorem C2_counterexample :
    ((dexSwap.swap_y_to_x 1).2.swap_y_to_x 1).2.lp_fees = (dexSwap.swap_y_to_x 2).2.lp_fees ∧
    ¬ ((dexSwap.swap_y_to_x 2).2.lp_fees < ((dexSwap.swap_y_to_x 1).2.swap_y_to_x 1).2.lp_fees) := by
  norm_num [dexSwap, dexArb, DEX.swap_y_to_x]

/-- C2 amended: in the y-to-x direction, splitting one swap of amount A
into k equal swaps of A/k (k at least 1) leaves cumulative lp_fees
exactly unchanged relative to the single swap of A: the per-swap fee in
swap_y_to_x depends only on the input amount, so splitting does not
strictly increase lp_fees. -/
theorem C2_split_swap_fees_equal (d : DEX) (A : ℝ) (k : ℕ) (hk : 1 ≤ k) :
    (d.swap_y_to_x_iter (A / k) k).lp_fees = (d.swap_y_to_x A).2.lp_fees := by
  rw [(swap_y_to_x_iter_lp_fees d (A / k) k).1]
  unfold DEX.swap_y_to_x
  dsimp only
  have hk0 : (k : ℝ) ≠ 0 := Nat.cast_ne_zero.mpr (by omega)
  have h1 : (k : ℝ) * (A / k - A / k / d.fee_factor) = A - A / d.fee_factor := by
    rw [div_div, mul_sub, mul_div_cancel₀ _ hk0, mul_div_assoc']
    rw [show (k : ℝ) * A = A * k by ring, mul_comm (k : ℝ) d.fee_factor]
    rw [mul_div_mul_right _ _ hk0]
  rw [h1]

/-- C2 witness: the amended statement instantiated at dexSwap with
A = 2 and k = 2. -/
theorem C2_witness :
    (dexSwap.swap_y_to_x_iter (2 / ((2 : ℕ) : ℝ)) 2).lp_fees =
      (dexSwap.swap_y_to_x 2).2.lp_fees :=
  C2_split_swap_fees_equal dexSwap 2 2 (by norm_num)

lemma sqrt_four : Real.sqrt (4 : ℝ) = 2 := by
  rw [show (4 : ℝ) = 2 ^ 2 by norm_num, Real.sqrt_sq (by norm_num : (0 : ℝ) ≤ 2)]

lemma sqrt_sixteen : Real.sqrt (16 : ℝ) = 4 := by
  rw [show (16 : ℝ) = 4 ^ 2 by norm_num, Real.sqrt_sq (by norm_num : (0 : ℝ) ≤ 4)]

lemma dexArb_target : dexArb.get_target_price 32 = some 16 := by
  norm_num [dexArb, DEX.get_target_price, DEX.price]

lemma dexArb_amounts : dexArb.get_amounts_to_target_price 16 = (-(1/2 : ℝ), 4) := by
  norm_num [dexArb, DEX.get_amounts_to_target_price, DEX.liquidity, sqrt_four, sqrt_sixteen]

lemma dexArb_sbp : dexArb.sbp_profit_at 32 16 = 7 := by
  unfold DEX.sbp_profit_at DEX.lvr_at DEX.lp_fee_at
  rw [dexArb_amounts]
  norm_num [dexArb]

lemma dexArb_trades : (dexArb.maybe_arbitrage 32).1 = true :=
  (maybe_arbitrage_of_pos dexArb_target (by rw [dexArb_sbp]; norm_num)).1

/-- C6: starting from a pool with strictly positive reserves (and the
data-model fee invariant fee_factor at least 1, debug override unset),
each operation preserves strict positivity of both reserves:
swap_x_to_y and swap_y_to_x with any positive input amount, and
maybe_arbitrage with any positive reference price; hence price and
liquidity stay well-defined and strictly positive. -/
theorem C6_reserves_stay_positive (d : DEX) (hx : 0 < d.reserve_x) (hy : 0 < d.reserve_y)
    (hff : 1 ≤ d.fee_factor) (hpre : d.preset_target_price = none) :
    (∀ a : ℝ, 0 < a →
      0 < (d.swap_x_to_y a).2.reserve_x ∧ 0 < (d.swap_x_to_y a).2.reserve_y) ∧
    (∀ a : ℝ, 0 < a →
      0 < (d.swap_y_to_x a).2.reserve_x ∧ 0 < (d.swap_y_to_x a).2.reserve_y) ∧
    (∀ cex : ℝ, 0 < cex →
      0 < (d.maybe_arbitrage cex).2.reserve_x ∧ 0 < (d.maybe_arbitrage cex).2.reserve_y ∧
      0 < (d.maybe_arbitrage cex).2.price ∧ 0 < (d.maybe_arbitrage cex).2.liquidity) := by
  refine ⟨fun a ha => swap_x_to_y_reserves hx hy hff ha,
    fun a ha => swap_y_to_x_reserves hx hy hff ha, fun cex hcex => ?_⟩
  have hmain : 0 < (d.maybe_arbitrage cex).2.reserve_x ∧
      0 < (d.maybe_arbitrage cex).2.reserve_y := by
    rcases htp : d.get_target_price cex with _ | t
    · rw [maybe_arbitrage_of_none htp]
      exact ⟨hx, hy⟩
    · rcases le_or_lt (d.sbp_profit_at cex t) 0 with hs | hs
      · rw [maybe_arbitrage_of_nonpos htp hs]
        exact ⟨hx, hy⟩
      · obtain ⟨-, hrx, hry, -⟩ := maybe_arbitrage_of_pos htp hs
        rw [hrx, hry]
        have ht : 0 < t := target_price_pos hcex (fee_factor_pos hff) htp
        simp only [DEX.get_amounts_to_target_price, hpre, DEX.liquidity]
        have hL : 0 < Real.sqrt (d.reserve_x * d.reserve_y) :=
          Real.sqrt_pos.mpr (by positivity)
        have hst : 0 < Real.sqrt t := Real.sqrt_pos.mpr ht
        constructor
        · have e : d.reserve_x +
              (Real.sqrt (d.reserve_x * d.reserve_y) / Real.sqrt t - d.reserve_x) =
              Real.sqrt (d.reserve_x * d.reserve_y) / Real.sqrt t := by ring
          rw [e]
          positivity
        · have e : d.reserve_y +
              (Real.sqrt (d.reserve_x * d.reserve_y) * Real.sqrt t - d.reserve_y) =
              Real.sqrt (d.reserve_x * d.reserve_y) * Real.sqrt t := by ring
          rw [e]
          positivity
  refine ⟨hmain.1, hmain.2, ?_, ?_⟩
  · rw [DEX.price]
    exact div_pos hmain.2 hmain.1
  · rw [DEX.liquidity]
    exact Real.sqrt_pos.mpr (mul_pos hmain.1 hmain.2)

/-- C6 witness: the statement instantiated at dexArb with swap inputs 1
and reference price 32. -/
theorem C6_witness :
    (0 < (dexArb.swap_x_to_y 1).2.reserve_x ∧ 0 < (dexArb.swap_x_to_y 1).2.reserve_y) ∧
    (0 < (dexArb.swap_y_to_x 1).2.reserve_x ∧ 0 < (dexArb.swap_y_to_x 1).2.reserve_y) ∧
    (0 < (dexArb.maybe_arbitrage 32).2.reserve_x ∧
     0 < (dexArb.maybe_arbitrage 32).2.reserve_y ∧
     0 < (dexArb.maybe_arbitrage 32).2.price ∧
     0 < (dexArb.maybe_arbitrage 32).2.liquidity) := by
  have h := C6_reserves_stay_positive dexArb (by norm_num [dexArb]) (by norm_num [dexArb])
    (by norm_num [dexArb]) rfl
  exact ⟨h.1 1 one_pos, h.2.1 1 one_pos, h.2.2 32 (by norm_num)⟩

/-- C5: whenever maybe_arbitrage executes a trade (its boolean result
is true), the amount added to the cumulative lvr metric is exactly
-(delta_x * cex_price + delta_y) for the reserve deltas computed at the
target price, and that amount is nonnegative. -/
theorem C5_lvr_update_exact_and_nonneg (d : DEX) (cex tp : ℝ) (hcex : 0 < cex)
    (hx : 0 < d.reserve_x) (hy : 0 < d.reserve_y)
    (h0 : 0 ≤ d.fee_ppm) (h1 : d.fee_ppm < 1000000)
    (hffq : d.fee_factor = 1000000 / (1000000 - d.fee_ppm))
    (hpre : d.preset_target_price = none) (hbf : 0 ≤ d.basefee_usd)
    (htp : d.get_target_price cex = some tp)
    (htr : (d.maybe_arbitrage cex).1 = true) :
    (d.maybe_arbitrage cex).2.lvr =
      d.lvr + -((d.get_amounts_to_target_price tp).1 * cex +
        (d.get_amounts_to_target_price tp).2) ∧
    0 ≤ -((d.get_amounts_to_target_price tp).1 * cex +
        (d.get_amounts_to_target_price tp).2) := by
  have hff := fee_factor_ge_one h0 h1 hffq
  have hs := sbp_pos_of_trade htp htr
  obtain ⟨-, -, -, hlvr⟩ := maybe_arbitrage_of_pos htp hs
  have ht : 0 < tp := target_price_pos hcex (fee_factor_pos hff) htp
  have hfee := lp_fee_at_nonneg hx hy ht hpre hff hcex
  have hlvrpos : 0 < d.lvr_at cex tp := by
    unfold DEX.sbp_profit_at at hs
    linarith
  have hform : d.lvr_at cex tp =
      -((d.get_amounts_to_target_price tp).1 * cex + (d.get_amounts_to_target_price tp).2) := by
    unfold DEX.lvr_at
    rfl
  constructor
  · rw [hlvr, hform]
  · rw [← hform]
    exact hlvrpos.le

/-- C5 witness: the statement instantiated at dexArb with reference
price 32 and target price 16. -/
theorem C5_witness :
    (dexArb.maybe_arbitrage 32).2.lvr =
      dexArb.lvr + -((dexArb.get_amounts_to_target_price 16).1 * 32 +
        (dexArb.get_amounts_to_target_price 16).2) ∧
    0 ≤ -((dexArb.get_amounts_to_target_price 16).1 * 32 +
        (dexArb.get_amounts_to_target_price 16).2) :=
  C5_lvr_update_exact_and_nonneg dexArb 32 16 (by norm_num) (by norm_num [dexArb])
    (by norm_num [dexArb]) (by norm_num [dexArb]) (by norm_num [dexArb])
    (by norm_num [dexArb]) rfl (by norm_num [dexArb]) dexArb_target dexArb_trades

/-- C9: whenever maybe_arbitrage executes a trade, the post-trade
reserves are exactly L/sqrt(target_price) and L*sqrt(target_price) for
the pre-trade L = sqrt(reserve_x*reserve_y), so the pool liquidity
sqrt(reserve_x*reserve_y) is unchanged by the trade. -/
theorem C9_trade_preserves_liquidity (d : DEX) (cex tp : ℝ) (hcex : 0 < cex)
    (hx : 0 < d.reserve_x) (hy : 0 < d.reserve_y) (hffpos : 0 < d.fee_factor)
    (hpre : d.preset_target_price = none)
    (htp : d.get_target_price cex = some tp)
    (htr : (d.maybe_arbitrage cex).1 = true) :
    (d.maybe_arbitrage cex).2.reserve_x =
      Real.sqrt (d.reserve_x * d.reserve_y) / Real.sqrt tp ∧
    (d.maybe_arbitrage cex).2.reserve_y =
      Real.sqrt (d.reserve_x * d.reserve_y) * Real.sqrt tp ∧
    Real.sqrt ((d.maybe_arbitrage cex).2.reserve_x * (d.maybe_arbitrage cex).2.reserve_y) =
      Real.sqrt (d.reserve_x * d.reserve_y) := by
  have hs := sbp_pos_of_trade htp htr
  obtain ⟨-, hrx, hry, -⟩ := maybe_arbitrage_of_pos htp hs
  have ht : 0 < tp := target_price_pos hcex hffpos htp
  have hst : 0 < Real.sqrt tp := Real.sqrt_pos.mpr ht
  have e1 : (d.maybe_arbitrage cex).2.reserve_x =
      Real.sqrt (d.reserve_x * d.reserve_y) / Real.sqrt tp := by
    rw [hrx]
    simp only [DEX.get_amounts_to_target_price, hpre, DEX.liquidity]
    ring
  have e2 : (d.maybe_arbitrage cex).2.reserve_y =
      Real.sqrt (d.reserve_x * d.reserve_y) * Real.sqrt tp := by
    rw [hry]
    simp only [DEX.get_amounts_to_target_price, hpre, DEX.liquidity]
    ring
  refine ⟨e1, e2, ?_⟩
  rw [e1, e2]
  have e3 : Real.sqrt (d.reserve_x * d.reserve_y) / Real.sqrt tp *
      (Real.sqrt (d.reserve_x * d.reserve_y) * Real.sqrt tp) =
      Real.sqrt (d.reserve_x * d.reserve_y) * Real.sqrt (d.reserve_x * d.reserve_y) := by
    field_simp
    ring
  rw [e3, Real.sqrt_mul_self (Real.sqrt_nonneg _)]

/-- C9 witness: the statement instantiated at dexArb with reference
price 32 and target price 16. -/
theorem C9_witness :
    (dexArb.maybe_arbitrage 32).2.reserve_x =
      Real.sqrt (dexArb.reserve_x * dexArb.reserve_y) / Real.sqrt 16 ∧
    (dexArb.maybe_arbitrage 32).2.reserve_y =
      Real.sqrt (dexArb.reserve_x * dexArb.reserve_y) * Real.sqrt 16 ∧
    Real.sqrt ((dexArb.maybe_arbitrage 32).2.reserve_x *
        (dexArb.maybe_arbitrage 32).2.reserve_y) =
      Real.sqrt (dexArb.reserve_x * dexArb.reserve_y) :=
  C9_trade_preserves_liquidity dexArb 32 16 (by norm_num) (by norm_num [dexArb])
    (by norm_num [dexArb]) (by norm_num [dexArb]) rfl dexArb_target dexArb_trades

/-- C3: for every pool with positive reserves, fee_ppm in [0, 1000000)
(fee_factor = 1000000/(1000000 - fee_ppm)), nonnegative basefee and the
debug override unset: a reference price exactly at the upper band
boundary price*fee_factor makes maybe_arbitrage return false and leave
the state unchanged; and for a reference price strictly beyond that
boundary whose searcher profit clears the basefee friction
(sbp_profit > 0 at the target cex/fee_factor), maybe_arbitrage executes
the trade and the resulting reserve_y/reserve_x is strictly closer to
the reference price than the pre-trade price was. -/
theorem C3_band_boundary_behaviour (d : DEX) (hx : 0 < d.reserve_x) (hy : 0 < d.reserve_y)
    (h0 : 0 ≤ d.fee_ppm) (h1 : d.fee_ppm < 1000000)
    (hffq : d.fee_factor = 1000000 / (1000000 - d.fee_ppm))
    (hpre : d.preset_target_price = none) (hbf : 0 ≤ d.basefee_usd) :
    (∀ cex : ℝ, cex = d.price * d.fee_factor → d.maybe_arbitrage cex = (false, d)) ∧
    (∀ cex : ℝ, d.price * d.fee_factor < cex →
      0 < d.sbp_profit_at cex (cex / d.fee_factor) →
      (d.maybe_arbitrage cex).1 = true ∧
      |(d.maybe_arbitrage cex).2.price - cex| < |d.price - cex|) := by
  have hff := fee_factor_ge_one h0 h1 hffq
  have hffp := fee_factor_pos hff
  have hp : 0 < d.price := by
    rw [DEX.price]
    positivity
  constructor
  · intro cex hcex
    subst hcex
    apply maybe_arbitrage_of_nonpos (target_at_upper_boundary hx hy hff)
    unfold DEX.sbp_profit_at DEX.lvr_at DEX.lp_fee_at
    rw [amounts_at_own_price hx hy hpre]
    norm_num
    linarith
  · intro cex hcex hsbp
    have htp := target_above_upper_boundary hx hy hff hcex
    obtain ⟨htr, hrx, hry, -⟩ := maybe_arbitrage_of_pos htp hsbp
    refine ⟨htr, ?_⟩
    have hcex0 : 0 < cex := lt_trans (by positivity) hcex
    have ht : 0 < cex / d.fee_factor := div_pos hcex0 hffp
    have hL : 0 < Real.sqrt (d.reserve_x * d.reserve_y) := Real.sqrt_pos.mpr (by positivity)
    have hst : 0 < Real.sqrt (cex / d.fee_factor) := Real.sqrt_pos.mpr ht
    have hss : Real.sqrt (cex / d.fee_factor) * Real.sqrt (cex / d.fee_factor) =
        cex / d.fee_factor := Real.mul_self_sqrt ht.le
    have hnew : (d.maybe_arbitrage cex).2.price = cex / d.fee_factor := by
      rw [DEX.price, hrx, hry]
      simp only [DEX.get_amounts_to_target_price, hpre, DEX.liquidity]
      have e1 : d.reserve_y +
          (Real.sqrt (d.reserve_x * d.reserve_y) * Real.sqrt (cex / d.fee_factor) -
            d.reserve_y) =
          Real.sqrt (d.reserve_x * d.reserve_y) * Real.sqrt (cex / d.fee_factor) := by ring
      have e2 : d.reserve_x +
          (Real.sqrt (d.reserve_x * d.reserve_y) / Real.sqrt (cex / d.fee_factor) -
            d.reserve_x) =
          Real.sqrt (d.reserve_x * d.reserve_y) / Real.sqrt (cex / d.fee_factor) := by ring
      rw [e1, e2, div_div_eq_mul_div, mul_assoc, hss, mul_comm, mul_div_assoc,
        div_self (ne_of_gt hL), mul_one]
    rw [hnew]
    have h2 : d.price < cex / d.fee_factor := by
      rw [lt_div_iff hffp]
      linarith
    have h3 : cex / d.fee_factor ≤ cex := div_le_self hcex0.le hff
    rw [abs_of_nonpos (by linarith), abs_of_neg (by nlinarith)]
    linarith

/-- C3 witness: the statement instantiated at dexArb (price 4,
fee_factor 2, so the upper boundary is 8) with the boundary price 8 for
the first part and the beyond-boundary price 32 for the second part. -/
theorem C3_witness :
    dexArb.maybe_arbitrage 8 = (false, dexArb) ∧
    ((dexArb.maybe_arbitrage 32).1 = true ∧
     |(dexArb.maybe_arbitrage 32).2.price - 32| < |dexArb.price - 32|) := by
  have h := C3_band_boundary_behaviour dexArb (by norm_num [dexArb]) (by norm_num [dexArb])
    (by norm_num [dexArb]) (by norm_num [dexArb]) (by norm_num [dexArb]) rfl
    (by norm_num [dexArb])
  refine ⟨h.1 8 (by norm_num [dexArb, DEX.price]), h.2 32 (by norm_num [dexArb, DEX.price]) ?_⟩
  have e : (32 : ℝ) / dexArb.fee_factor = 16 := by norm_num [dexArb]
  rw [e, dexArb_sbp]
  norm_num

/-- C10: get_fee_share is total and bounded: for positive price
arguments and position bounds pos_tick_low < pos_tick_high, the divisor
total_ticks is at least 1 (never zero), the proportion_in_range is
between 0 and 1 (so the internal assert holds), and with
0 <= pos_liquidity_share < 1 the returned fee share lies in [0, 1). -/
theorem C10_fee_share_total_and_bounded (d : DEX) (ps pe : ℝ) (hps : 0 < ps) (hpe : 0 < pe)
    (hlh : d.pos_tick_low < d.pos_tick_high)
    (hsh0 : 0 ≤ d.pos_liquidity_share) (hsh1 : d.pos_liquidity_share < 1) :
    1 ≤ d.fee_share_total_ticks ps pe ∧
    0 ≤ (d.fee_share_ticks_in_range ps pe : ℝ) / (d.fee_share_total_ticks ps pe : ℝ) ∧
    (d.fee_share_ticks_in_range ps pe : ℝ) / (d.fee_share_total_ticks ps pe : ℝ) ≤ 1 ∧
    0 ≤ d.get_fee_share ps pe ∧ d.get_fee_share ps pe < 1 := by
  have hmono : to_tick (min ps pe) ≤ to_tick pe :=
    to_tick_mono (lt_min hps hpe) (min_le_right ps pe)
  have htt : 1 ≤ d.fee_share_total_ticks ps pe := by
    unfold DEX.fee_share_total_ticks
    omega
  have htir : 0 ≤ d.fee_share_ticks_in_range ps pe ∧
      d.fee_share_ticks_in_range ps pe ≤ d.fee_share_total_ticks ps pe := by
    unfold DEX.fee_share_ticks_in_range DEX.fee_share_total_ticks
    dsimp only
    split_ifs <;> omega
  have httR : (0 : ℝ) < (d.fee_share_total_ticks ps pe : ℝ) := by
    exact_mod_cast lt_of_lt_of_le zero_lt_one htt
  have hprop0 : 0 ≤ (d.fee_share_ticks_in_range ps pe : ℝ) /
      (d.fee_share_total_ticks ps pe : ℝ) :=
    div_nonneg (by exact_mod_cast htir.1) httR.le
  have hprop1 : (d.fee_share_ticks_in_range ps pe : ℝ) /
      (d.fee_share_total_ticks ps pe : ℝ) ≤ 1 := by
    rw [div_le_one httR]
    exact_mod_cast htir.2
  refine ⟨htt, hprop0, hprop1, ?_, ?_⟩
  · unfold DEX.get_fee_share
    exact mul_nonneg hprop0 hsh0
  · unfold DEX.get_fee_share
    dsimp only
    calc (d.fee_share_ticks_in_range ps pe : ℝ) / (d.fee_share_total_ticks ps pe : ℝ) *
        d.pos_liquidity_share
      ≤ 1 * d.pos_liquidity_share := mul_le_mul_of_nonneg_right hprop1 hsh0
    _ = d.pos_liquidity_share := one_mul _
    _ < 1 := hsh1

/-- C10 witness: the statement instantiated at the pool dexFee (range
ticks -5 and 5, position share one half) with both prices 1. -/
theorem C10_witness :
    1 ≤ dexFee.fee_share_total_ticks 1 1 ∧
    0 ≤ (dexFee.fee_share_ticks_in_range 1 1 : ℝ) / (dexFee.fee_share_total_ticks 1 1 : ℝ) ∧
    (dexFee.fee_share_ticks_in_range 1 1 : ℝ) / (dexFee.fee_share_total_ticks 1 1 : ℝ) ≤ 1 ∧
    0 ≤ dexFee.get_fee_share 1 1 ∧ dexFee.get_fee_share 1 1 < 1 :=
  C10_fee_share_total_and_bounded dexFee 1 1 one_pos one_pos
    (by norm_num [dexFee, dexArb]) (by norm_num [dexFee, dexArb])
    (by norm_num [dexFee, dexArb])

lemma dexPos_price : dexPos.price = 1 := by
  norm_num [dexPos, dexArb, DEX.price]

lemma sqrt_dexPos_price : Real.sqrt dexPos.price = 1 := by
  rw [dexPos_price, Real.sqrt_one]

lemma dexPos_liquidity : dexPos.liquidity = 100000000 := by
  unfold DEX.liquidity
  rw [show dexPos.reserve_x * dexPos.reserve_y = (100000000 : ℝ) ^ 2 by
    norm_num [dexPos, dexArb]]
  exact Real.sqrt_sq (by norm_num)

lemma to_price_one_val : to_price 1 = (1.0001 : ℝ) := by
  unfold to_price
  rw [zpow_one]

lemma to_price_neg_one : to_price (-1) = ((1.0001 : ℝ))⁻¹ := by
  unfold to_price
  rw [zpow_neg, zpow_one]

lemma to_sqrt_price_neg_one : to_sqrt_price (-1) = ((1.0001 : ℝ))⁻¹ := by
  unfold to_sqrt_price
  rw [show ((-1 : ℤ).fdiv 2) = -1 from by decide, zpow_neg, zpow_one]

lemma to_sqrt_price_one_val : to_sqrt_price 1 = 1 := by
  unfold to_sqrt_price
  rw [show ((1 : ℤ).fdiv 2) = 0 from by decide, zpow_zero]

lemma to_price_neg_two_lt_one : to_price (-2) < 1 := by
  unfold to_price
  rw [show (-2 : ℤ) = -(2 : ℤ) by norm_num, zpow_neg]
  rw [inv_lt_one_iff_of_pos (by positivity)]
  rw [show ((2 : ℤ)) = ((2 : ℕ) : ℤ) by norm_num, zpow_natCast]
  nlinarith

lemma one_lt_to_price_two : 1 < to_price 2 := by
  unfold to_price
  rw [show ((2 : ℤ)) = ((2 : ℕ) : ℤ) by norm_num, zpow_natCast]
  nlinarith

/-- C8 amended: for a pool with positive reserves, no accrued position
fees, a positive contributed value, and a valid tick range (tick_low
below tick_high, both even — as is the case for any multiple of the
pool tick spacing of 10 — with the current price strictly inside the
range), add_position followed immediately by remove_position at the
reference price equal to the pool price returns exactly the contributed
value. -/
theorem C8_round_trip_even_ticks (d : DEX) (v : ℝ) (tl th : ℤ)
    (hx : 0 < d.reserve_x) (hy : 0 < d.reserve_y) (hv : 0 < v)
    (hfu : d.pos_fees_usd = 0) (hfe : d.pos_fees_eth = 0)
    (hetl : Even tl) (heth : Even th) (hlth : tl < th)
    (hlow : to_price tl < d.price) (hhigh : d.price < to_price th) :
    ((d.add_position v tl th).remove_position d.price).1 = v := by
  have hp : 0 < d.price := by
    rw [DEX.price]
    positivity
  have htl0 : (0 : ℝ) ≤ to_price tl := by
    unfold to_price
    positivity
  have hA : Real.sqrt (to_price tl) < Real.sqrt d.price := Real.sqrt_lt_sqrt htl0 hlow
  have hB : Real.sqrt d.price < Real.sqrt (to_price th) := Real.sqrt_lt_sqrt hp.le hhigh
  have hAe := sqrt_to_price_of_even hetl
  have hBe := sqrt_to_price_of_even heth
  have h := (roundtrip_eval d v tl th hx hy hfu hfe hA hB
    (by rw [← hAe]; exact hA.le) (by rw [← hBe]; exact hB.le)).1
  rw [h, ← hAe, ← hBe]
  set s := Real.sqrt d.price with hsdef
  set A := Real.sqrt (to_price tl) with hAdef
  set B := Real.sqrt (to_price th) with hBdef
  have hs : 0 < s := Real.sqrt_pos.mpr hp
  have hsq : s ^ 2 = d.price := Real.sq_sqrt hp.le
  have hBpos : 0 < B := lt_trans hs hB
  have hvu : 0 < (B - s) / (s * B) * s ^ 2 + (s - A) := by
    have t1 : 0 < (B - s) / (s * B) * s ^ 2 :=
      mul_pos (div_pos (by linarith) (by positivity)) (by positivity)
    have t2 : 0 < s - A := sub_pos.mpr hA
    linarith
  have hvu0 : (B - s) / (s * B) * s ^ 2 + (s - A) ≠ 0 := ne_of_gt hvu
  rw [← hsq]
  have factored : v / ((B - s) / (s * B) * s ^ 2 + (s - A)) * (s - A) +
      v / ((B - s) / (s * B) * s ^ 2 + (s - A)) * (B - s) / (s * B) * s ^ 2 =
      v / ((B - s) / (s * B) * s ^ 2 + (s - A)) *
        ((B - s) / (s * B) * s ^ 2 + (s - A)) := by
    ring
  rw [factored, div_mul_cancel₀ v hvu0]

/-- C8 witness: the amended statement instantiated at the pool dexPos
(price 1), value 1/10000 and the even tick range [-2, 2]. -/
theorem C8_witness :
    ((dexPos.add_position (1/10000) (-2) 2).remove_position dexPos.price).1 = 1/10000 :=
  C8_round_trip_even_ticks dexPos (1/10000) (-2) 2
    (by norm_num [dexPos, dexArb]) (by norm_num [dexPos, dexArb]) (by norm_num)
    rfl rfl ⟨-1, by norm_num⟩ ⟨1, by norm_num⟩ (by norm_num)
    (by rw [dexPos_price]; exact to_price_neg_two_lt_one)
    (by rw [dexPos_price]
        calc (1 : ℝ) < to_price 2 := one_lt_to_price_two)

/-- C8 counterexample: at the pool dexPos (price 1, liquidity 10^8)
with contributed value 1 and the tick range [-1, 1] (tick_low below
tick_high and resulting liquidity share below 1, as the claim
requires), add_position followed immediately by remove_position at the
unchanged pool price returns strictly less than 99998/100000, a loss of
more than 2 parts in 100000 of the contributed value 1 — far beyond
floating tolerance.  The odd tick bounds make remove_position use
to_sqrt_price (floor of tick/2) while add_position used the exact
square root of to_price. -/
theorem C8_counterexample :
    (dexPos.add_position 1 (-1) 1).pos_liquidity_share < 1 ∧
    ((dexPos.add_position 1 (-1) 1).remove_position dexPos.price).1 < 99998/100000 := by
  set B := Real.sqrt ((1.0001 : ℝ)) with hBdef
  have hBsq : B ^ 2 = (1.0001 : ℝ) := Real.sq_sqrt (by norm_num)
  have hB1 : 1 < B := by
    have h1 : Real.sqrt 1 < Real.sqrt 1.0001 := Real.sqrt_lt_sqrt (by norm_num) (by norm_num)
    rw [Real.sqrt_one] at h1
    exact h1
  have hB0 : 0 < B := lt_trans one_pos hB1
  have hBm1 : 0 < B - 1 := by linarith
  have hBlt2 : B < 2 := by nlinarith
  have hBgt : 25000/24999 < B := by
    have key : 0 < (B - 25000/24999) * (B + 25000/24999) := by nlinarith
    nlinarith
  have hsqb : Real.sqrt (to_price 1) = B := by rw [to_price_one_val]
  have hsqa : Real.sqrt (to_price (-1)) = B⁻¹ := by rw [to_price_neg_one, Real.sqrt_inv]
  have hA : Real.sqrt (to_price (-1)) < Real.sqrt dexPos.price := by
    rw [hsqa, sqrt_dexPos_price, inv_lt_one_iff_of_pos hB0]
    exact hB1
  have hBb : Real.sqrt dexPos.price < Real.sqrt (to_price 1) := by
    rw [sqrt_dexPos_price, hsqb]
    exact hB1
  have hA2 : to_sqrt_price (-1) ≤ Real.sqrt dexPos.price := by
    rw [to_sqrt_price_neg_one, sqrt_dexPos_price]
    norm_num
  have hB2 : Real.sqrt dexPos.price ≤ to_sqrt_price 1 := by
    rw [sqrt_dexPos_price, to_sqrt_price_one_val]
  obtain ⟨hval, hshare⟩ := roundtrip_eval dexPos 1 (-1) 1
    (by norm_num [dexPos, dexArb]) (by norm_num [dexPos, dexArb]) rfl rfl hA hBb hA2 hB2
  rw [sqrt_dexPos_price, hsqb, hsqa] at hval hshare
  rw [to_sqrt_price_neg_one, to_sqrt_price_one_val, dexPos_price] at hval
  rw [dexPos_liquidity] at hshare
  have hvu : (B - 1) / (1 * B) * (1 : ℝ) ^ 2 + (1 - B⁻¹) = 2 * (B - 1) / B := by
    field_simp
    ring
  rw [hvu] at hval hshare
  constructor
  · rw [hshare, one_div_div, div_div, div_lt_one (by positivity)]
    linarith
  · rw [dexPos_price, hval]
    norm_num
    have hval3 : B / (2 * (B - 1)) * (1 / 10001 : ℝ) = (B + 1) / (2 * B) := by
      rw [div_mul_div_comm, div_eq_div_iff (by nlinarith) (by positivity)]
      linear_combination (-20000 : ℝ) * hBsq
    rw [hval3, div_lt_div_iff (by positivity) (by norm_num)]
    linarith
